import Mathlib

/-
Verification of the refill selector language and spec machinery.

Shallow embedding of `src/refill/spec.py` (the pyparsing grammar behind
`parse_selector`, the evaluator `select_data`, that file's filter
functions, `apply_spec`, and the key check of `validate_spec`) together
with the filter functions of `src/refill/filters.py` that the claims
mention (`sort_filter`, `cumul_filter`, `head_filter`, `tail_filter`,
`format_currency_filter`).

Python values flowing through the evaluator are modelled by the `JSON`
type below; Python dicts are insertion-ordered association lists, and
`dict[k] = v` updates in place when the key is present and appends
otherwise. Machine-level work the code delegates to external libraries
(babel formatting, urllib fetching, text decoding, `str()` rendering) is
abstracted as an `Ext` record of opaque string-producing functions: the
interface the code consumes, per the out-of-scope list of the spec.
-/

set_option linter.unusedVariables false

namespace Refill

/-- JSON-like Python values handled by the evaluator: JSON scalars,
lists and (insertion-ordered) dicts, plus the byte strings produced by
the fetch filter. Dict keys are themselves values because Python dicts
are not restricted to string keys (the selfie filter builds `{45: 45}`).
Python floats are modelled as rationals. `datetime` objects, which JSON
input cannot contain, are not modelled. -/
inductive JSON where
  | null
  | bool (b : Bool)
  | int (n : Int)
  | float (q : Rat)
  | str (s : String)
  | bytes (b : String)
  | arr (elems : List JSON)
  | obj (entries : List (JSON × JSON))
deriving Repr

/-- Errors raised by the Python code, by class: `KeyError` and
`IndexError` (with the missing key where it is a string), `ValueError`,
`TypeError`, and pyparsing's `ParseException`. -/
inductive Err where
  | keyError (k : String)
  | indexError
  | valueError (msg : String)
  | typeError (msg : String)
  | parseError
deriving Repr, DecidableEq

mutual
/-- Structural equality of values, playing the role of Python `==` in
dict-key comparisons. (Python additionally identifies numerically equal
`int`/`float`/`bool` keys; no code path relevant to the claims compares
keys of different scalar kinds.) -/
def beqJ : JSON → JSON → Bool
  | .null, .null => true
  | .bool a, .bool b => a == b
  | .int a, .int b => a == b
  | .float a, .float b => a == b
  | .str a, .str b => a == b
  | .bytes a, .bytes b => a == b
  | .arr xs, .arr ys => beqArr xs ys
  | .obj xs, .obj ys => beqEntries xs ys
  | _, _ => false
def beqArr : List JSON → List JSON → Bool
  | [], [] => true
  | x :: xs, y :: ys => beqJ x y && beqArr xs ys
  | _, _ => false
def beqEntries : List (JSON × JSON) → List (JSON × JSON) → Bool
  | [], [] => true
  | (k1, v1) :: xs, (k2, v2) :: ys => beqJ k1 k2 && beqJ v1 v2 && beqEntries xs ys
  | _, _ => false
end

instance : BEq JSON := ⟨beqJ⟩

/-- First-match lookup in a Python dict (`d[k]` / `k in d`; dict keys
are unique, so first match is the match). -/
def dlookup (entries : List (JSON × JSON)) (k : JSON) : Option JSON :=
  match entries with
  | [] => none
  | (k2, v) :: rest => if beqJ k2 k then some v else dlookup rest k

/-- Python `d[k] = v`: replace in place when the key exists, append
otherwise (insertion order preserved). -/
def dinsert (entries : List (JSON × JSON)) (k : JSON) (v : JSON) :
    List (JSON × JSON) :=
  match entries with
  | [] => [(k, v)]
  | (k2, v2) :: rest =>
      if beqJ k2 k then (k2, v) :: rest else (k2, v2) :: dinsert rest k v

/-- Lookup in a string-keyed table (the `apply_spec` result dict, whose
keys are spec keys and hence strings). -/
def tlookup (t : List (String × JSON)) (k : String) : Option JSON :=
  match t with
  | [] => none
  | (k2, v) :: rest => if k2 = k then some v else tlookup rest k

/-- `result[key] = v` on the string-keyed `apply_spec` result table. -/
def tinsert (t : List (String × JSON)) (k : String) (v : JSON) :
    List (String × JSON) :=
  match t with
  | [] => [(k, v)]
  | (k2, v2) :: rest =>
      if k2 = k then (k2, v) :: rest else (k2, v2) :: tinsert rest k v

/-- View a string-keyed table as a JSON object value (a nested
`apply_spec` result is stored in the parent dict as a plain dict). -/
def objOfTable (t : List (String × JSON)) : JSON :=
  .obj (t.map fun kv => (.str kv.1, kv.2))

/-! String helpers. Lean's `String` convenience functions do not reduce
definitionally, so the embedding manipulates the underlying character
lists directly. -/

/-- Python `key.endswith("?")`. -/
def strEndsQm (s : String) : Bool :=
  match s.data.getLast? with
  | some c => c = '?'
  | none => false

/-- Python `key[:-1]`. -/
def strDropLast (s : String) : String :=
  .mk s.data.dropLast

/-- Python `locale.replace("-", "_")` (line 68 of spec.py; the replaced
pattern is a single character, so a character map is exact). -/
def strReplaceDash (s : String) : String :=
  .mk (s.data.map fun c => if c = '-' then '_' else c)

/-- Python `s.lower()` over the ASCII range the grammar admits. -/
def strLower (s : String) : String :=
  .mk (s.data.map Char.toLower)

/-- Python `s.upper()` over the ASCII range the grammar admits. -/
def strUpper (s : String) : String :=
  .mk (s.data.map Char.toUpper)

/-- Python `s[::-1]`. -/
def strReverse (s : String) : String :=
  .mk s.data.reverse

/-- Python `int(s)`: optional surrounding whitespace, an optional sign,
then one or more decimal digits (digit-group underscores are not
modelled). `none` models the `ValueError` that `int` raises. -/
def parsePyIntDigits (cs : List Char) (acc : Nat) : Option Nat :=
  match cs with
  | [] => some acc
  | c :: rest =>
      if c.isDigit then parsePyIntDigits rest (acc * 10 + (c.toNat - 48)) else none

def parsePyIntCore (cs : List Char) : Option Int :=
  match cs with
  | '-' :: rest =>
      match rest with
      | [] => none
      | _ => (parsePyIntDigits rest 0).map fun n => -(n : Int)
  | '+' :: rest =>
      match rest with
      | [] => none
      | _ => (parsePyIntDigits rest 0).map fun n => (n : Int)
  | [] => none
  | _ => (parsePyIntDigits cs 0).map fun n => (n : Int)

def isSpaceChar (c : Char) : Bool :=
  c = ' ' || c = '\t' || c = '\n'

def parsePyInt (s : String) : Option Int :=
  parsePyIntCore ((s.data.dropWhile isSpaceChar).reverse.dropWhile isSpaceChar).reverse

/-! The selector grammar of spec.py lines 35-53. pyparsing semantics:
whitespace is skipped before every token, alternation (`|`) is ordered
choice committing to the first alternative that matches, repetition is
greedy with atomic (all-or-nothing) iterations, and `Optional` consumes
nothing when its body fails partway. `parse_string(..., parse_all=True)`
additionally requires that only whitespace remains. -/

/-- One filter invocation as captured by `filter_token`: a name and the
textual arguments. -/
structure FilterCall where
  name : String
  arguments : List String
deriving Repr, DecidableEq

/-- The parse results of `selector_parser` under the results names used
by `select_data`: `lookup`, `selections` (each a list of dotted fields),
and `filters`. -/
structure Parsed where
  lookup : Option String
  selections : List (List String)
  filters : List FilterCall
deriving Repr, DecidableEq

def skipWs (cs : List Char) : List Char :=
  match cs with
  | [] => []
  | c :: rest => if isSpaceChar c then skipWs rest else c :: rest

def spanWord (p : Char → Bool) (cs : List Char) : List Char × List Char :=
  match cs with
  | [] => ([], [])
  | c :: rest =>
      if p c then
        let r := spanWord p rest
        (c :: r.1, r.2)
      else ([], c :: rest)

/-- `Word(first, rest)`: skip whitespace, then a nonempty greedy run. -/
def wordTok (first rest : Char → Bool) (cs : List Char) :
    Option (String × List Char) :=
  match skipWs cs with
  | [] => none
  | c :: cs2 =>
      if first c then
        let r := spanWord rest cs2
        some (String.mk (c :: r.1), r.2)
      else none

/-- A literal single-character token, whitespace-skipping. -/
def litTok (ch : Char) (cs : List Char) : Option (List Char) :=
  match skipWs cs with
  | [] => none
  | c :: cs2 => if c = ch then some cs2 else none

def identFirst (c : Char) : Bool := c.isAlpha || c = '_'
def identRest (c : Char) : Bool := c.isAlphanum || c = '_'
def argChar (c : Char) : Bool := c.isAlphanum

def quoteChar : Char := Char.ofNat 39

/-- Body of `QuotedString` with the doubled-quote escape: consume up to
the closing quote, translating two quotes in a row to one. -/
def quotedBody (fuel : Nat) (cs : List Char) (acc : List Char) :
    Option (String × List Char) :=
  match fuel with
  | 0 => none
  | fuel + 1 =>
      match cs with
      | [] => none
      | c :: cs2 =>
          if c = quoteChar then
            match cs2 with
            | c2 :: cs3 =>
                if c2 = quoteChar then quotedBody fuel cs3 (acc ++ [quoteChar])
                else some (String.mk acc, cs2)
            | [] => some (String.mk acc, [])
          else quotedBody fuel cs2 (acc ++ [c])

def parseQuoted (cs : List Char) : Option (String × List Char) :=
  match skipWs cs with
  | [] => none
  | c :: cs2 =>
      if c = quoteChar then quotedBody (cs2.length + 1) cs2 [] else none

/-- `argument_token = Word(alphanums) | QuotedString("'", esc_quote="''")`. -/
def parseArg (cs : List Char) : Option (String × List Char) :=
  match wordTok argChar argChar cs with
  | some r => some r
  | none => parseQuoted cs

/-- The `("," argument)*` tail of `delimited_list(argument_token)`;
iterations are atomic. -/
def argListRest (fuel : Nat) (cs : List Char) (acc : List String) :
    List String × List Char :=
  match fuel with
  | 0 => (acc, cs)
  | fuel + 1 =>
      match litTok ',' cs with
      | none => (acc, cs)
      | some cs2 =>
          match parseArg cs2 with
          | none => (acc, cs)
          | some (a, cs3) => argListRest fuel cs3 (acc ++ [a])

/-- `filter_token`: `"|" name Optional("(" Optional(arg-list) ")")`.
When `(` matches but no `)` closes the group, the whole `Optional` fails
and consumes nothing, leaving the parenthesis in the input. -/
def parseFilterCall (cs : List Char) : Option (FilterCall × List Char) :=
  match litTok '|' cs with
  | none => none
  | some cs2 =>
      match wordTok identFirst identRest cs2 with
      | none => none
      | some (name, cs3) =>
          match litTok '(' cs3 with
          | none => some (⟨name, []⟩, cs3)
          | some cs4 =>
              match parseArg cs4 with
              | some (a, cs5) =>
                  let r := argListRest cs5.length cs5 [a]
                  match litTok ')' r.2 with
                  | some cs6 => some (⟨name, r.1⟩, cs6)
                  | none => some (⟨name, []⟩, cs3)
              | none =>
                  match litTok ')' cs4 with
                  | some cs6 => some (⟨name, []⟩, cs6)
                  | none => some (⟨name, []⟩, cs3)

/-- The `filter_token*` tail after a first filter. -/
def filtersRest (fuel : Nat) (cs : List Char) (acc : List FilterCall) :
    List FilterCall × List Char :=
  match fuel with
  | 0 => (acc, cs)
  | fuel + 1 =>
      match parseFilterCall cs with
      | none => (acc, cs)
      | some (f, cs2) => filtersRest fuel cs2 (acc ++ [f])

/-- The `("." field)*` tail of `selection_token`; iterations are atomic,
so a trailing dot without a field is left unconsumed. -/
def dotFieldsRest (fuel : Nat) (cs : List Char) (acc : List String) :
    List String × List Char :=
  match fuel with
  | 0 => (acc, cs)
  | fuel + 1 =>
      match litTok '.' cs with
      | none => (acc, cs)
      | some cs2 =>
          match wordTok identFirst identRest cs2 with
          | none => (acc, cs)
          | some (f, cs3) => dotFieldsRest fuel cs3 (acc ++ [f])

/-- `selection_token = Group(field ("." field)*)`. -/
def parseSelection (cs : List Char) : Option (List String × List Char) :=
  match wordTok identFirst identRest cs with
  | none => none
  | some (f, cs2) =>
      let r := dotFieldsRest cs2.length cs2 [f]
      some (r.1, r.2)

/-- The `("," selection)*` tail of `combine_token`. -/
def combineRest (fuel : Nat) (cs : List Char) (acc : List (List String)) :
    List (List String) × List Char :=
  match fuel with
  | 0 => (acc, cs)
  | fuel + 1 =>
      match litTok ',' cs with
      | none => (acc, cs)
      | some cs2 =>
          match parseSelection cs2 with
          | none => (acc, cs)
          | some (sel, cs3) => combineRest fuel cs3 (acc ++ [sel])

/-- `combine_token = delimited_list(selection_token, delim=",")`. -/
def parseCombine (cs : List Char) : Option (List (List String) × List Char) :=
  match parseSelection cs with
  | none => none
  | some (sel, cs2) =>
      let r := combineRest cs2.length cs2 [sel]
      some (r.1, r.2)

/-- `lookup_token = "=" + Word(alphas + "_", alphanums + "_")`. -/
def parseLookup (cs : List Char) : Option (String × List Char) :=
  match litTok '=' cs with
  | none => none
  | some cs2 => wordTok identFirst identRest cs2

/-- `filtered_token = lookup_token | selection_token | "(" combine ")"`:
ordered choice; the parse result records either a lookup name or the
selections. -/
def parseFilteredTok (cs : List Char) :
    Option ((Option String × List (List String)) × List Char) :=
  match parseLookup cs with
  | some (n, cs2) => some ((some n, []), cs2)
  | none =>
      match parseSelection cs with
      | some (sel, cs2) => some ((none, [sel]), cs2)
      | none =>
          match litTok '(' cs with
          | none => none
          | some cs2 =>
              match parseCombine cs2 with
              | none => none
              | some (sels, cs3) =>
                  match litTok ')' cs3 with
                  | none => none
                  | some cs4 => some ((none, sels), cs4)

/-- `unfiltered_token = lookup_token | combine_token`. -/
def parseUnfilteredTok (cs : List Char) :
    Option ((Option String × List (List String)) × List Char) :=
  match parseLookup cs with
  | some (n, cs2) => some ((some n, []), cs2)
  | none =>
      match parseCombine cs with
      | none => none
      | some (sels, cs2) => some ((none, sels), cs2)

/-- Second alternative of the top-level grammar: a bare
`unfiltered_token`, with an empty filter pipeline. -/
def parseSelectorBare (cs : List Char) : Option (Parsed × List Char) :=
  match parseUnfilteredTok cs with
  | none => none
  | some ((lk, sels), cs2) => some (⟨lk, sels, []⟩, cs2)

/-- The whole grammar:
`(filtered_token + filter_token[1, ...]) | unfiltered_token`. -/
def parseSelectorCore (cs : List Char) : Option (Parsed × List Char) :=
  match parseFilteredTok cs with
  | none => parseSelectorBare cs
  | some ((lk, sels), cs2) =>
      match parseFilterCall cs2 with
      | none => parseSelectorBare cs
      | some (f, cs3) =>
          let r := filtersRest cs3.length cs3 [f]
          some (⟨lk, sels, r.1⟩, r.2)

/-- `parse_selector` (spec.py lines 56-57):
`selector_parser.parse_string(selector, parse_all=True)`; with
`parse_all`, anything but trailing whitespace is a `ParseException`,
modelled as `none`. -/
def parse_selector (selector : String) : Option Parsed :=
  match parseSelectorCore selector.data with
  | none => none
  | some (p, rest) =>
      match skipWs rest with
      | [] => some p
      | _ => none

/-! External capabilities consumed by the filters (babel formatting,
urllib fetching, text decoding, Python `str()` rendering and ISO date
parsing). The code only composes their string results, so they are
opaque function parameters here. -/

structure Ext where
  fmtDecimal : JSON → String → String
  fmtCurrency : JSON → String → String → String
  fmtPercent : JSON → Option String → String → String
  isoParse : String → Option String
  fmtDate : String → String → String → String
  fetchUrl : String → String
  decodeBytes : String → String → String
  pyStr : JSON → String

/-- A concrete instantiation of the external interface, used to evaluate
the embedding at concrete inputs. -/
def dummyExt : Ext :=
  ⟨fun _ _ => "", fun _ _ _ => "", fun _ _ _ => "", fun s => some s,
   fun _ _ _ => "", fun _ => "", fun _ _ => "", fun _ => ""⟩

/-! Python numeric and comparison semantics used by the filters. -/

/-- Numeric view of a value: Python treats `bool` as `int`. `inl` keeps
integers exact so that `int + int` stays an `int`. -/
def numVal : JSON → Option (Int ⊕ Rat)
  | .bool b => some (.inl (if b then 1 else 0))
  | .int n => some (.inl n)
  | .float q => some (.inr q)
  | _ => none

/-- Python `+` on the values the filters feed it: numbers add (int with
int stays int), strings, bytes and lists concatenate, anything else is a
`TypeError`. -/
def pyAdd (a b : JSON) : Except Err JSON :=
  match numVal a, numVal b with
  | some (.inl x), some (.inl y) => .ok (.int (x + y))
  | some (.inl x), some (.inr y) => .ok (.float ((x : Rat) + y))
  | some (.inr x), some (.inl y) => .ok (.float (x + (y : Rat)))
  | some (.inr x), some (.inr y) => .ok (.float (x + y))
  | _, _ =>
      match a, b with
      | .str x, .str y => .ok (.str (x ++ y))
      | .bytes x, .bytes y => .ok (.bytes (x ++ y))
      | .arr x, .arr y => .ok (.arr (x ++ y))
      | _, _ => .error (.typeError "unsupported operand type for +")

/-- Python `sum(x)`: fold `+` starting from the int 0. -/
def pySum (xs : List JSON) : Except Err JSON :=
  xs.foldlM pyAdd (.int 0)

/-- `itertools.accumulate` continued from a running value. -/
def accumFrom (acc : JSON) : List JSON → Except Err (List JSON)
  | [] => .ok []
  | x :: xs => do
      let a2 ← pyAdd acc x
      let r ← accumFrom a2 xs
      .ok (a2 :: r)

/-- `list(itertools.accumulate(x))`: running prefix sums under `+`. -/
def pyAccumulate : List JSON → Except Err (List JSON)
  | [] => .ok []
  | x :: xs => do
      let r ← accumFrom x xs
      .ok (x :: r)

/-- Lexicographic comparison of character lists (Python `str < str`). -/
def cmpChars : List Char → List Char → Ordering
  | [], [] => .eq
  | [], _ :: _ => .lt
  | _ :: _, [] => .gt
  | a :: xs, b :: ys =>
      if a.val < b.val then .lt
      else if b.val < a.val then .gt
      else cmpChars xs ys

def cmpRat (x y : Rat) : Ordering :=
  if x < y then .lt else if y < x then .gt else .eq

mutual
/-- Python `<`-comparison as used by `sorted`: numbers numerically
(`bool` as number), strings and bytes lexicographically, lists
lexicographically and recursively; any other pair is a `TypeError`. -/
def pyCompare (a b : JSON) : Except Err Ordering :=
  match numVal a, numVal b with
  | some (.inl x), some (.inl y) => .ok (if x < y then .lt else if y < x then .gt else .eq)
  | some (.inl x), some (.inr y) => .ok (cmpRat (x : Rat) y)
  | some (.inr x), some (.inl y) => .ok (cmpRat x (y : Rat))
  | some (.inr x), some (.inr y) => .ok (cmpRat x y)
  | _, _ =>
      match a, b with
      | .str x, .str y => .ok (cmpChars x.data y.data)
      | .bytes x, .bytes y => .ok (cmpChars x.data y.data)
      | .arr xs, .arr ys => pyCompareList xs ys
      | _, _ => .error (.typeError "comparison not supported between instances")
def pyCompareList : List JSON → List JSON → Except Err Ordering
  | [], [] => .ok .eq
  | [], _ :: _ => .ok .lt
  | _ :: _, [] => .ok .gt
  | x :: xs, y :: ys => do
      match ← pyCompare x y with
      | .lt => .ok .lt
      | .gt => .ok .gt
      | .eq => pyCompareList xs ys
end

/-- Stable insertion of an element into a sorted list: it goes before
the first strictly greater element. -/
def insertSorted (x : JSON) : List JSON → Except Err (List JSON)
  | [] => .ok [x]
  | y :: ys => do
      match ← pyCompare x y with
      | .lt => .ok (x :: y :: ys)
      | _ => do
          let r ← insertSorted x ys
          .ok (y :: r)

/-- Python `sorted(x)` on a list, as a stable insertion sort; mutually
incomparable elements raise `TypeError` as in Python (the precise set of
comparisons attempted may differ from Timsort, but on lists of mutually
comparable elements the result is identical). -/
def pySorted : List JSON → Except Err (List JSON)
  | [] => .ok []
  | x :: xs => do
      let r ← pySorted xs
      insertSorted x r

/-- Stable insertion of a dict entry by key (`sorted(x.items())`
compares the key components first; dict keys are unique, so the value
components are never compared). -/
def insertSortedEntry (x : JSON × JSON) : List (JSON × JSON) →
    Except Err (List (JSON × JSON))
  | [] => .ok [x]
  | y :: ys => do
      match ← pyCompare x.1 y.1 with
      | .lt => .ok (x :: y :: ys)
      | _ => do
          let r ← insertSortedEntry x ys
          .ok (y :: r)

/-- `sorted(x.items())` on a dict's entry list. -/
def pySortedEntries : List (JSON × JSON) → Except Err (List (JSON × JSON))
  | [] => .ok []
  | x :: xs => do
      let r ← pySortedEntries xs
      insertSortedEntry x r

/-- Normalize a Python slice bound against a list length: negative
bounds count from the end and clamp at 0, nonnegative bounds clamp at
the length. -/
def pySliceBound (len : Nat) (a : Int) : Nat :=
  if a < 0 then ((len : Int) + a).toNat else min a.toNat len

/-- Python `x[:n]`. -/
def pyTake (xs : List JSON) (n : Int) : List JSON :=
  xs.take (pySliceBound xs.length n)

/-- Python `x[-n:]`. -/
def pyTailSlice (xs : List JSON) (n : Int) : List JSON :=
  xs.drop (pySliceBound xs.length (-n))

/-- Python `list(x.items())[-n:]`. -/
def pyTailSliceEntries (xs : List (JSON × JSON)) (n : Int) :
    List (JSON × JSON) :=
  xs.drop (if -n < 0 then ((xs.length : Int) + -n).toNat else min (-n).toNat xs.length)

/-! The filter functions defined inside `src/refill/spec.py`
(lines 152-325) — the set that `select_data` in that file dispatches to. -/

namespace SpecPy

/-- `keys_filter` (spec.py 152-158). -/
def keys_filter (x : JSON) : Except Err JSON :=
  match x with
  | .obj kvs => .ok (.arr (kvs.map Prod.fst))
  | .arr xs => .ok (.arr ((List.range xs.length).map fun i => .int i))
  | _ => .error (.valueError "keys filter cannot be applied to given value")

/-- `values_filter` (spec.py 161-167). -/
def values_filter (x : JSON) : Except Err JSON :=
  match x with
  | .obj kvs => .ok (.arr (kvs.map Prod.snd))
  | .arr xs => .ok (.arr xs)
  | _ => .error (.valueError "values filter cannot be applied to given value")

/-- `sort_filter` (spec.py 170-174): this copy handles only lists; any
other value, dicts included, raises `ValueError`. -/
def sort_filter (x : JSON) : Except Err JSON :=
  match x with
  | .arr xs => do .ok (.arr (← pySorted xs))
  | _ => .error (.valueError "sort filter cannot be applied to given value")

/-- `reverse_filter` (spec.py 177-185). -/
def reverse_filter (x : JSON) : Except Err JSON :=
  match x with
  | .arr xs => .ok (.arr xs.reverse)
  | .obj kvs => .ok (.obj kvs.reverse)
  | .str s => .ok (.str (strReverse s))
  | _ => .error (.valueError "reverse filter cannot be applied to given value")

mutual
/-- `lower_filter` (spec.py 188-196). -/
def lower_filter : JSON → Except Err JSON
  | .str s => .ok (.str (strLower s))
  | .arr xs => do .ok (.arr (← lowerList xs))
  | .obj kvs => do .ok (.obj (← lowerVals kvs))
  | _ => .error (.valueError "lower filter cannot be applied to given value")
def lowerList : List JSON → Except Err (List JSON)
  | [] => .ok []
  | x :: xs => do .ok ((← lower_filter x) :: (← lowerList xs))
def lowerVals : List (JSON × JSON) → Except Err (List (JSON × JSON))
  | [] => .ok []
  | (k, v) :: rest => do .ok ((k, ← lower_filter v) :: (← lowerVals rest))
end

mutual
/-- `upper_filter` (spec.py 199-207). -/
def upper_filter : JSON → Except Err JSON
  | .str s => .ok (.str (strUpper s))
  | .arr xs => do .ok (.arr (← upperList xs))
  | .obj kvs => do .ok (.obj (← upperVals kvs))
  | _ => .error (.valueError "upper filter cannot be applied to given value")
def upperList : List JSON → Except Err (List JSON)
  | [] => .ok []
  | x :: xs => do .ok ((← upper_filter x) :: (← upperList xs))
def upperVals : List (JSON × JSON) → Except Err (List (JSON × JSON))
  | [] => .ok []
  | (k, v) :: rest => do .ok ((k, ← upper_filter v) :: (← upperVals rest))
end

/-- `str_filter` (spec.py 210-211): Python `str(x)` (rendering is the
external `pyStr`), or `str(x, encoding=...)`, which requires bytes. -/
def str_filter (ext : Ext) (x : JSON) (encoding : Option String) :
    Except Err JSON :=
  match encoding with
  | none => .ok (.str (ext.pyStr x))
  | some enc =>
      match x with
      | .bytes b => .ok (.str (ext.decodeBytes b enc))
      | _ => .error (.typeError "decoding to str: need a bytes-like object")

/-- `int_filter` (spec.py 214-215): Python `int(x)`. Floats truncate
toward zero; strings and bytes parse or raise `ValueError`; remaining
kinds raise `TypeError`. -/
def int_filter (x : JSON) : Except Err JSON :=
  match x with
  | .bool b => .ok (.int (if b then 1 else 0))
  | .int n => .ok (.int n)
  | .float q => .ok (.int (q.num.tdiv (q.den : Int)))
  | .str s =>
      match parsePyInt s with
      | some n => .ok (.int n)
      | none => .error (.valueError ("invalid literal for int: " ++ s))
  | .bytes s =>
      match parsePyInt s with
      | some n => .ok (.int n)
      | none => .error (.valueError ("invalid literal for int: " ++ s))
  | _ => .error (.typeError "int argument must be a string or a number")

/-- `selfie_filter` (spec.py 218-224); Python `isinstance(x, int)`
admits booleans. `dict(zip(x, x))` deduplicates repeated elements at
their first position, which `dinsert` mirrors. -/
def selfie_filter (x : JSON) : Except Err JSON :=
  match x with
  | .str _ => .ok (.obj [(x, x)])
  | .int _ => .ok (.obj [(x, x)])
  | .bool _ => .ok (.obj [(x, x)])
  | .float _ => .ok (.obj [(x, x)])
  | .arr xs => .ok (.obj (xs.foldl (fun d i => dinsert d i i) []))
  | _ => .error (.valueError "selfie filter cannot be applied to given value")

/-- `first_filter` (spec.py 227-231): `x[0]`, `IndexError` when empty. -/
def first_filter (x : JSON) : Except Err JSON :=
  match x with
  | .arr (y :: _) => .ok y
  | .arr [] => .error .indexError
  | _ => .error (.valueError "first filter cannot be applied to given value")

/-- `last_filter` (spec.py 234-238): `x[-1]`, `IndexError` when empty. -/
def last_filter (x : JSON) : Except Err JSON :=
  match x with
  | .arr xs =>
      match xs.getLast? with
      | some y => .ok y
      | none => .error .indexError
  | _ => .error (.valueError "last filter cannot be applied to given value")

/-- `head_filter` (spec.py 241-247): `x[:n]` on lists,
`dict(islice(x.items(), n))` on dicts (`islice` rejects negative `n`
with `ValueError`). -/
def head_filter (x : JSON) (n : Int) : Except Err JSON :=
  match x with
  | .arr xs => .ok (.arr (pyTake xs n))
  | .obj kvs =>
      if n < 0 then .error (.valueError "islice stop must be nonnegative")
      else .ok (.obj (kvs.take n.toNat))
  | _ => .error (.valueError "head filter cannot be applied to given value")

/-- `tail_filter` (spec.py 250-256): `x[-n:]` on lists,
`dict(list(x.items())[-n:])` on dicts. -/
def tail_filter (x : JSON) (n : Int) : Except Err JSON :=
  match x with
  | .arr xs => .ok (.arr (pyTailSlice xs n))
  | .obj kvs => .ok (.obj (pyTailSliceEntries kvs n))
  | _ => .error (.valueError "tail filter cannot be applied to given value")

mutual
/-- `sum_filter` (spec.py 259-265): `sum` on lists, recursion into the
values of dicts. -/
def sum_filter : JSON → Except Err JSON
  | .arr xs => pySum xs
  | .obj kvs => do .ok (.obj (← sumVals kvs))
  | _ => .error (.valueError "sum filter cannot be applied to given value")
def sumVals : List (JSON × JSON) → Except Err (List (JSON × JSON))
  | [] => .ok []
  | (k, v) :: rest => do .ok ((k, ← sum_filter v) :: (← sumVals rest))
end

mutual
/-- `format_number_filter` (spec.py 268-276); `isinstance(x, int)`
admits booleans. -/
def format_number_filter (ext : Ext) (locale : String) :
    JSON → Except Err JSON
  | .int n => .ok (.str (ext.fmtDecimal (.int n) locale))
  | .float q => .ok (.str (ext.fmtDecimal (.float q) locale))
  | .bool b => .ok (.str (ext.fmtDecimal (.bool b) locale))
  | .arr xs => do .ok (.arr (← formatNumberList ext locale xs))
  | .obj kvs => do .ok (.obj (← formatNumberVals ext locale kvs))
  | _ => .error (.valueError "format_number filter cannot be applied to given value")
def formatNumberList (ext : Ext) (locale : String) :
    List JSON → Except Err (List JSON)
  | [] => .ok []
  | x :: xs => do
      .ok ((← format_number_filter ext locale x) :: (← formatNumberList ext locale xs))
def formatNumberVals (ext : Ext) (locale : String) :
    List (JSON × JSON) → Except Err (List (JSON × JSON))
  | [] => .ok []
  | (k, v) :: rest => do
      .ok ((k, ← format_number_filter ext locale v) :: (← formatNumberVals ext locale rest))
end

mutual
/-- `format_currency_filter` (spec.py 279-287, byte-identical to
filters.py 218-227). The list branch passes `currency` through; the dict
branch (spec.py line 285) calls back without the currency argument, so
the recursion there resumes at the parameter default `"USD"`. -/
def format_currency_filter (ext : Ext) (locale : String) :
    JSON → String → Except Err JSON
  | .int n, currency => .ok (.str (ext.fmtCurrency (.int n) currency locale))
  | .float q, currency => .ok (.str (ext.fmtCurrency (.float q) currency locale))
  | .bool b, currency => .ok (.str (ext.fmtCurrency (.bool b) currency locale))
  | .arr xs, currency => do .ok (.arr (← formatCurrencyList ext locale xs currency))
  | .obj kvs, _ => do .ok (.obj (← formatCurrencyVals ext locale kvs))
  | _, _ => .error (.valueError "format_currency filter cannot be applied to given value")
def formatCurrencyList (ext : Ext) (locale : String) :
    List JSON → String → Except Err (List JSON)
  | [], _ => .ok []
  | x :: xs, currency => do
      .ok ((← format_currency_filter ext locale x currency)
        :: (← formatCurrencyList ext locale xs currency))
def formatCurrencyVals (ext : Ext) (locale : String) :
    List (JSON × JSON) → Except Err (List (JSON × JSON))
  | [] => .ok []
  | (k, v) :: rest => do
      .ok ((k, ← format_currency_filter ext locale v "USD")
        :: (← formatCurrencyVals ext locale rest))
end

mutual
/-- `format_percent_filter` (spec.py 290-300); the optional pattern is
passed through every recursive branch. -/
def format_percent_filter (ext : Ext) (locale : String) :
    JSON → Option String → Except Err JSON
  | .int n, format => .ok (.str (ext.fmtPercent (.int n) format locale))
  | .float q, format => .ok (.str (ext.fmtPercent (.float q) format locale))
  | .bool b, format => .ok (.str (ext.fmtPercent (.bool b) format locale))
  | .arr xs, format => do .ok (.arr (← formatPercentList ext locale xs format))
  | .obj kvs, format => do .ok (.obj (← formatPercentVals ext locale kvs format))
  | _, _ => .error (.valueError "format_percent filter cannot be applied to given value")
def formatPercentList (ext : Ext) (locale : String) :
    List JSON → Option String → Except Err (List JSON)
  | [], _ => .ok []
  | x :: xs, format => do
      .ok ((← format_percent_filter ext locale x format)
        :: (← formatPercentList ext locale xs format))
def formatPercentVals (ext : Ext) (locale : String) :
    List (JSON × JSON) → Option String → Except Err (List (JSON × JSON))
  | [], _ => .ok []
  | (k, v) :: rest, format => do
      .ok ((k, ← format_percent_filter ext locale v format)
        :: (← formatPercentVals ext locale rest format))
end

/-- The `YYYY` / `YYYY-MM` completion of `format_date_filter` (spec.py
306-309): append the last `10 - len(x)` characters of `"-01-01"`. -/
def padDateString (s : String) : String :=
  if 4 ≤ s.data.length ∧ s.data.length < 10 then
    let missing := 10 - s.data.length
    .mk (s.data ++ "-01-01".data.drop (6 - missing))
  else s

mutual
/-- `format_date_filter` (spec.py 303-316). The `datetime` branch is
unreachable from JSON data and is not modelled; strings are completed
with `padDateString`, then parsed by the external `fromisoformat`
(`none` models its `ValueError`) and formatted. -/
def format_date_filter (ext : Ext) (locale : String) :
    JSON → String → Except Err JSON
  | .str s, format =>
      match ext.isoParse (padDateString s) with
      | some d => .ok (.str (ext.fmtDate d format locale))
      | none => .error (.valueError ("invalid isoformat string: " ++ s))
  | .arr xs, format => do .ok (.arr (← formatDateList ext locale xs format))
  | .obj kvs, format => do .ok (.obj (← formatDateVals ext locale kvs format))
  | _, _ => .error (.valueError "format_date filter cannot be applied to given value")
def formatDateList (ext : Ext) (locale : String) :
    List JSON → String → Except Err (List JSON)
  | [], _ => .ok []
  | x :: xs, format => do
      .ok ((← format_date_filter ext locale x format)
        :: (← formatDateList ext locale xs format))
def formatDateVals (ext : Ext) (locale : String) :
    List (JSON × JSON) → String → Except Err (List (JSON × JSON))
  | [], _ => .ok []
  | (k, v) :: rest, format => do
      .ok ((k, ← format_date_filter ext locale v format)
        :: (← formatDateVals ext locale rest format))
end

/-- Elementwise fetch for the list branch of `fetch_filter`; `urlopen`
on a non-string fails, modelled as `TypeError`. -/
def fetchList (ext : Ext) : List JSON → Except Err (List JSON)
  | [] => .ok []
  | .str s :: xs => do .ok (.bytes (ext.fetchUrl s) :: (← fetchList ext xs))
  | _ :: _ => .error (.typeError "urlopen expected a string url")

/-- `fetch_filter` (spec.py 319-325). -/
def fetch_filter (ext : Ext) (x : JSON) : Except Err JSON :=
  match x with
  | .str s => .ok (.bytes (ext.fetchUrl s))
  | .arr xs => do .ok (.arr (← fetchList ext xs))
  | _ => .error (.valueError "fetch filter cannot be applied to given value")

end SpecPy

/-! The evaluator `select_data` (spec.py 60-149). -/

/-- Indexing `item[field]` inside the list comprehension of line 82:
dict items index by key (`KeyError` when absent); list items reject a
string index with `TypeError`; scalars are not subscriptable. -/
def itemIndex (field : String) (item : JSON) : Except Err JSON :=
  match item with
  | .obj kvs =>
      match dlookup kvs (.str field) with
      | some v => .ok v
      | none => .error (.keyError field)
  | .arr _ => .error (.typeError "list indices must be integers")
  | _ => .error (.typeError "object is not subscriptable")

def itemsIndex (field : String) : List JSON → Except Err (List JSON)
  | [] => .ok []
  | item :: rest => do .ok ((← itemIndex field item) :: (← itemsIndex field rest))

/-- One step of the selection walk (spec.py 80-86): a list plucks the
field from every element, a dict indexes by it, and anything else raises
`ValueError("unexpected type in given data")`. -/
def walkField (selected : JSON) (field : String) : Except Err JSON :=
  match selected with
  | .arr items => do .ok (.arr (← itemsIndex field items))
  | .obj kvs =>
      match dlookup kvs (.str field) with
      | some v => .ok v
      | none => .error (.keyError field)
  | _ => .error (.valueError "unexpected type in given data")

/-- The dotted-path walk of one selection from the data root. -/
def walkFields (data : JSON) : List String → Except Err JSON :=
  go data
where
  go : JSON → List String → Except Err JSON
    | selected, [] => .ok selected
    | selected, f :: fs => do go (← walkField selected f) fs

/-- `x[k].append(v)` on a `defaultdict(list)` (spec.py 89-92): a present
key grows its list in place, an absent key is appended at the end with a
fresh one-element list. -/
def dinsertAppend (acc : List (JSON × List JSON)) (k : JSON) (v : JSON) :
    List (JSON × List JSON) :=
  match acc with
  | [] => [(k, [v])]
  | (k2, vs) :: rest =>
      if beqJ k2 k then (k2, vs ++ [v]) :: rest
      else (k2, vs) :: dinsertAppend rest k v

/-- `combine_into_dict(x, y)` (spec.py 89-92). -/
def combine_into_dict (acc : List (JSON × List JSON))
    (y : List (JSON × JSON)) : List (JSON × List JSON) :=
  y.foldl (fun a kv => dinsertAppend a kv.1 kv.2) acc

/-- `functools.reduce(combine_into_dict, selecteds, defaultdict(list))`
(spec.py line 101). -/
def combineDicts (ds : List (List (JSON × JSON))) :
    List (JSON × List JSON) :=
  ds.foldl combine_into_dict []

/-- `all(isinstance(s, dict) for s in selecteds)`: the entry lists when
every selection produced a dict. -/
def allObjs : List JSON → Option (List (List (JSON × JSON)))
  | [] => some []
  | .obj kvs :: rest => (allObjs rest).map fun ds => kvs :: ds
  | _ :: _ => none

/-- The combination step of spec.py 98-103: a single value passes
through, all-dicts key-union into lists of values, and any other mix
yields the plain list of values. -/
def combineSelecteds (xs : List JSON) : JSON :=
  if xs.length = 1 then xs.headD .null
  else
    match allObjs xs with
    | some ds => .obj ((combineDicts ds).map fun kv => (kv.1, .arr kv.2))
    | none => .arr xs

/-- The filter dispatch table and argument coercion of spec.py 105-141.
Textual arguments are coerced by the first positional parameter of each
filter (`int` for head/tail, identity for the string parameters);
`zip`-truncation ignores surplus arguments; `locale` and `urlopen` stay
keyword-only. An unknown name is the `KeyError` of the dict indexing at
line 127, translated by the caller. -/
def applyNamedFilter (ext : Ext) (locale : String) (fc : FilterCall)
    (x : JSON) : Except Err JSON :=
  match fc.name with
  | "keys" => SpecPy.keys_filter x
  | "values" => SpecPy.values_filter x
  | "sort" => SpecPy.sort_filter x
  | "reverse" => SpecPy.reverse_filter x
  | "lower" => SpecPy.lower_filter x
  | "upper" => SpecPy.upper_filter x
  | "str" => SpecPy.str_filter ext x fc.arguments.head?
  | "int" => SpecPy.int_filter x
  | "selfie" => SpecPy.selfie_filter x
  | "first" => SpecPy.first_filter x
  | "last" => SpecPy.last_filter x
  | "head" =>
      match fc.arguments.head? with
      | none => SpecPy.head_filter x 1
      | some a =>
          match parsePyInt a with
          | some n => SpecPy.head_filter x n
          | none => .error (.valueError ("invalid literal for int: " ++ a))
  | "tail" =>
      match fc.arguments.head? with
      | none => SpecPy.tail_filter x 1
      | some a =>
          match parsePyInt a with
          | some n => SpecPy.tail_filter x n
          | none => .error (.valueError ("invalid literal for int: " ++ a))
  | "sum" => SpecPy.sum_filter x
  | "format_number" => SpecPy.format_number_filter ext locale x
  | "format_currency" =>
      SpecPy.format_currency_filter ext locale x (fc.arguments.head?.getD "USD")
  | "format_percent" => SpecPy.format_percent_filter ext locale x fc.arguments.head?
  | "format_date" =>
      SpecPy.format_date_filter ext locale x (fc.arguments.head?.getD "medium")
  | "fetch" => SpecPy.fetch_filter ext x
  | _ => .error (.keyError fc.name)

/-- The filter pipeline fold of spec.py 105-147 with its `try/except`:
a `KeyError` becomes `ValueError("filter ... does not exist")` and a
`TypeError` becomes `ValueError("invalid arguments for filter ...")`;
other errors propagate unchanged. -/
def runFilters (ext : Ext) (locale : String) :
    List FilterCall → JSON → Except Err JSON
  | [], x => .ok x
  | fc :: rest, x =>
      match applyNamedFilter ext locale fc x with
      | .ok y => runFilters ext locale rest y
      | .error (.keyError _) =>
          .error (.valueError ("filter " ++ fc.name ++ " does not exist"))
      | .error (.typeError _) =>
          .error (.valueError ("invalid arguments for filter " ++ fc.name ++ ": "))
      | .error e => .error e

def walkSelections (data : JSON) : List (List String) → Except Err (List JSON)
  | [] => .ok []
  | sel :: rest => do .ok ((← walkFields data sel) :: (← walkSelections data rest))

/-- `select_data` (spec.py 60-149): normalize the locale, parse the
selector, resolve either the lookup reference (requiring a lookup
table) or the selections from the data, combine, then run the filter
pipeline. -/
def select_data (ext : Ext) (locale0 : String) (data : JSON)
    (selector : String) (lookup_table : Option (List (String × JSON))) :
    Except Err JSON :=
  let locale := strReplaceDash locale0
  match parse_selector selector with
  | none => .error .parseError
  | some parsed =>
      match parsed.lookup with
      | some name =>
          match lookup_table with
          | none => .error (.valueError "lookup table required but not provided")
          | some t =>
              match tlookup t name with
              | some v => runFilters ext locale parsed.filters v
              | none => .error (.keyError name)
      | none => do
          let selecteds ← walkSelections data parsed.selections
          runFilters ext locale parsed.filters (combineSelecteds selecteds)

/-! The spec walker `apply_spec` (spec.py 328-353). -/

/-- A spec node: a selector leaf, a nested spec object, or any other
JSON kind (which `apply_spec` rejects with `ValueError`). -/
inductive SpecVal where
  | leaf (sel : String)
  | node (entries : List (String × SpecVal))
  | other
deriving Repr

mutual
/-- One iteration of the `apply_spec` loop body (spec.py 336-352) for
the entry `(key, v)`, given the result dict built so far: it returns the
updated result dict (unchanged when an optional key swallows its
`KeyError`) or propagates the error. -/
def applySpecEntry (ext : Ext) (locale : String) (data : JSON)
    (key : String) (result : List (String × JSON)) :
    SpecVal → Except Err (List (String × JSON))
  | .leaf sel =>
      let stripped := if strEndsQm key then strDropLast key else key
      match select_data ext locale data sel (some result) with
      | .ok v => .ok (tinsert result stripped v)
      | .error (.keyError k) =>
          if strEndsQm key then .ok result else .error (.keyError k)
      | .error e => .error e
  | .node entries =>
      match applySpecGo ext locale data entries [] with
      | .ok sub => .ok (tinsert result key (objOfTable sub))
      | .error e => .error e
  | .other => .error (.valueError "unexpected type in given data")
/-- The entry loop of `apply_spec` (spec.py 335-353), carrying the
result dict under construction, which is also the lookup table handed to
every `select_data` call. -/
def applySpecGo (ext : Ext) (locale : String) (data : JSON) :
    List (String × SpecVal) → List (String × JSON) →
    Except Err (List (String × JSON))
  | [], result => .ok result
  | (key, v) :: rest, result =>
      match applySpecEntry ext locale data key result v with
      | .ok result2 => applySpecGo ext locale data rest result2
      | .error e => .error e
end

/-- `apply_spec` (spec.py 328-353). -/
def apply_spec (ext : Ext) (locale : String) (spec : List (String × SpecVal))
    (data : JSON) : Except Err (List (String × JSON)) :=
  applySpecGo ext locale data spec []

/-! The key check of `validate_spec` (spec.py 356-362). -/

/-- `set(hints.keys()).symmetric_difference(set(spec.keys()))` (line
360), listed with the target-side keys first; Python's `set` semantics
make only membership meaningful. -/
def symmDiffKeys (hintKeys specKeys : List String) : List String :=
  hintKeys.filter (fun k => !(specKeys.contains k))
    ++ specKeys.filter (fun k => !(hintKeys.contains k))

/-- The key comparison of `validate_spec` (spec.py 359-362): the raw
spec keys are set-compared with the target's field names, and a
nonempty symmetric difference raises a single `ValueError` whose message
interpolates that difference (carried here as the error payload). -/
def validate_spec_keys (hintKeys specKeys : List String) :
    Except (List String) Unit :=
  let diff := symmDiffKeys hintKeys specKeys
  if diff.isEmpty then .ok () else .error diff

/-! The filter functions of `src/refill/filters.py` named by the claims.
`head_filter`, `tail_filter` and `format_currency_filter` there are
byte-identical to the spec.py copies embedded above; `sort_filter`
differs (it also sorts dicts) and `cumul_filter` exists only there. -/

namespace FiltersPy

/-- `sort_filter` (filters.py 84-91): ascending copy for lists, and —
unlike the spec.py copy — `dict(sorted(x.items()))` for dicts. -/
def sort_filter (x : JSON) : Except Err JSON :=
  match x with
  | .arr xs => do .ok (.arr (← pySorted xs))
  | .obj kvs => do .ok (.obj (← pySortedEntries kvs))
  | _ => .error (.valueError "sort filter cannot be applied to given value")

/-- `cumul_filter` (filters.py 196-203): `list(accumulate(x))` on lists
and `dict(zip(x.keys(), accumulate(x.values())))` on dicts. -/
def cumul_filter (x : JSON) : Except Err JSON :=
  match x with
  | .arr xs => do .ok (.arr (← pyAccumulate xs))
  | .obj kvs => do
      .ok (.obj (kvs.zip (← pyAccumulate (kvs.map Prod.snd)) |>.map
        fun p => (p.1.1, p.2)))
  | _ => .error (.valueError "cumul filter cannot be applied to given value")

/-- `head_filter` (filters.py 166-173), byte-identical to spec.py. -/
def head_filter (x : JSON) (n : Int) : Except Err JSON :=
  SpecPy.head_filter x n

/-- `tail_filter` (filters.py 176-183), byte-identical to spec.py. -/
def tail_filter (x : JSON) (n : Int) : Except Err JSON :=
  SpecPy.tail_filter x n

/-- `format_currency_filter` (filters.py 218-227), byte-identical to
spec.py 279-287 including the dict branch that drops the currency. -/
def format_currency_filter (ext : Ext) (locale : String) (x : JSON)
    (currency : String) : Except Err JSON :=
  SpecPy.format_currency_filter ext locale x currency

end FiltersPy

/-! Statement-side vocabulary. JSON data has string dict keys, so the
combine theorems are stated over string-keyed entry lists; the
definitions below mirror the combine accumulator at the string level and
describe its outcome (first-occurrence key union, values in input
order). -/

/-- Whether a value is a dict. -/
def isObjB : JSON → Bool
  | .obj _ => true
  | _ => false

/-- A string-keyed entry list viewed as JSON object entries. -/
def strEntries (d : List (String × JSON)) : List (JSON × JSON) :=
  d.map fun kv => (.str kv.1, kv.2)

/-- String-keyed mirror of one `defaultdict(list)` append. -/
def sinsertAppend (acc : List (String × List JSON)) (k : String) (v : JSON) :
    List (String × List JSON) :=
  match acc with
  | [] => [(k, [v])]
  | (k2, vs) :: rest =>
      if k2 = k then (k2, vs ++ [v]) :: rest
      else (k2, vs) :: sinsertAppend rest k v

/-- String-keyed mirror of `combine_into_dict`. -/
def scombine (acc : List (String × List JSON)) (d : List (String × JSON)) :
    List (String × List JSON) :=
  d.foldl (fun a kv => sinsertAppend a kv.1 kv.2) acc

/-- Lookup in the string-keyed combine accumulator. -/
def slookupA (acc : List (String × List JSON)) (k : String) :
    Option (List JSON) :=
  match acc with
  | [] => none
  | (k2, vs) :: rest => if k2 = k then some vs else slookupA rest k

/-- Append a key if it is not present yet. -/
def insertNewKeyS (acc : List String) (k : String) : List String :=
  if acc.contains k then acc else acc ++ [k]

/-- The union of the key lists of several dicts, keeping the order of
first occurrence. -/
def unionKeysS (ds : List (List (String × JSON))) : List String :=
  ds.foldl (fun acc d => d.foldl (fun a kv => insertNewKeyS a kv.1) acc) []

/-- Modelled from the spec: the sigil stripping of the data model
section — a leading `~` and a trailing `?` are removed from a spec key.
Used only to state what the validator is claimed (and observed not) to
do; `validate_spec` itself has no counterpart of this function. -/
def stripSigils (k : String) : String :=
  let l := match k.data with
    | '~' :: rest => rest
    | l => l
  .mk (match l.getLast? with
    | some c => if c = '?' then l.dropLast else l
    | none => l)

/-! Helper lemmas. -/

theorem tlookup_tinsert_self (t : List (String × JSON)) (k : String) (v : JSON) :
    tlookup (tinsert t k v) k = some v := by
  induction t with
  | nil => simp [tinsert, tlookup]
  | cons kv rest ih =>
      obtain ⟨k2, v2⟩ := kv
      by_cases h : k2 = k <;> simp [tinsert, tlookup, h, ih]

theorem tlookup_eq_none_iff (t : List (String × JSON)) (q : String) :
    tlookup t q = none ↔ q ∉ t.map Prod.fst := by
  induction t with
  | nil => simp [tlookup]
  | cons kv rest ih =>
      obtain ⟨k2, v2⟩ := kv
      by_cases h : k2 = q
      · simp [tlookup, h]
      · simp [tlookup, h, ih, Ne.symm h]

/-! The combine accumulator, transported to the string level. -/

theorem dinsertAppend_strKeyed (A : List (String × List JSON)) (k : String)
    (v : JSON) :
    dinsertAppend (A.map fun kv => (JSON.str kv.1, kv.2)) (.str k) v
      = (sinsertAppend A k v).map fun kv => (JSON.str kv.1, kv.2) := by
  induction A with
  | nil => simp [dinsertAppend, sinsertAppend]
  | cons kv rest ih =>
      obtain ⟨k2, vs⟩ := kv
      by_cases h : k2 = k <;>
        simp [dinsertAppend, sinsertAppend, beqJ, h, ih]

theorem combine_into_dict_strKeyed (d : List (String × JSON))
    (A : List (String × List JSON)) :
    combine_into_dict (A.map fun kv => (JSON.str kv.1, kv.2)) (strEntries d)
      = (scombine A d).map fun kv => (JSON.str kv.1, kv.2) := by
  induction d generalizing A with
  | nil => simp [combine_into_dict, scombine, strEntries]
  | cons kv rest ih =>
      obtain ⟨k, v⟩ := kv
      simpa [combine_into_dict, scombine, strEntries,
        dinsertAppend_strKeyed A k v] using ih (sinsertAppend A k v)

theorem combineDicts_strKeyed_aux (ds : List (List (String × JSON)))
    (A : List (String × List JSON)) :
    (ds.map strEntries).foldl combine_into_dict
        (A.map fun kv => (JSON.str kv.1, kv.2))
      = (ds.foldl scombine A).map fun kv => (JSON.str kv.1, kv.2) := by
  induction ds generalizing A with
  | nil => simp
  | cons d rest ih =>
      simpa [combine_into_dict_strKeyed d A] using ih (scombine A d)

theorem combineDicts_strKeyed (ds : List (List (String × JSON))) :
    combineDicts (ds.map strEntries)
      = (ds.foldl scombine []).map fun kv => (JSON.str kv.1, kv.2) := by
  simpa [combineDicts] using combineDicts_strKeyed_aux ds []

/-! Keys of the combine accumulator. -/

theorem sinsertAppend_keys (A : List (String × List JSON)) (k : String)
    (v : JSON) :
    (sinsertAppend A k v).map Prod.fst
      = insertNewKeyS (A.map Prod.fst) k := by
  induction A with
  | nil => simp [sinsertAppend, insertNewKeyS]
  | cons kv rest ih =>
      obtain ⟨k2, vs⟩ := kv
      by_cases h : k2 = k
      · simp [sinsertAppend, insertNewKeyS, h, List.contains_eq_any_beq]
      · by_cases h2 : (rest.map Prod.fst).contains k <;>
          simp_all [sinsertAppend, insertNewKeyS, List.contains_eq_any_beq, h,
            Ne.symm h]

theorem scombine_keys (d : List (String × JSON)) (A : List (String × List JSON)) :
    (scombine A d).map Prod.fst
      = d.foldl (fun a kv => insertNewKeyS a kv.1) (A.map Prod.fst) := by
  induction d generalizing A with
  | nil => simp [scombine]
  | cons kv rest ih =>
      obtain ⟨k, v⟩ := kv
      simpa [scombine, sinsertAppend_keys] using ih (sinsertAppend A k v)

theorem foldl_scombine_keys (ds : List (List (String × JSON)))
    (A : List (String × List JSON)) :
    (ds.foldl scombine A).map Prod.fst
      = ds.foldl (fun acc d => d.foldl (fun a kv => insertNewKeyS a kv.1) acc)
          (A.map Prod.fst) := by
  induction ds generalizing A with
  | nil => simp
  | cons d rest ih =>
      simpa [scombine_keys] using ih (scombine A d)

theorem combine_acc_keys (ds : List (List (String × JSON))) :
    (ds.foldl scombine []).map Prod.fst = unionKeysS ds := by
  simpa [unionKeysS] using foldl_scombine_keys ds []

/-! Lookups in the combine accumulator. -/

theorem slookupA_sinsertAppend (A : List (String × List JSON)) (k q : String)
    (v : JSON) :
    slookupA (sinsertAppend A k v) q
      = if q = k then some ((slookupA A k).getD [] ++ [v]) else slookupA A q := by
  induction A with
  | nil =>
      by_cases hq : q = k
      · simp [sinsertAppend, slookupA, hq]
      · simp [sinsertAppend, slookupA, hq, Ne.symm hq]
  | cons kv rest ih =>
      obtain ⟨k2, vs⟩ := kv
      by_cases h2 : k2 = k
      · subst h2
        by_cases hq : q = k2
        · simp [sinsertAppend, slookupA, hq]
        · simp [sinsertAppend, slookupA, hq, Ne.symm hq]
      · by_cases hq : q = k
        · have h2q : ¬ k2 = q := fun hh => h2 (hh.trans hq)
          subst hq
          simp [sinsertAppend, slookupA, h2, h2q, ih]
        · by_cases h2q : k2 = q <;> simp [sinsertAppend, slookupA, h2, hq, h2q, ih]

theorem slookupA_scombine_not_mem (d : List (String × JSON))
    (A : List (String × List JSON)) (q : String)
    (hq : q ∉ d.map Prod.fst) :
    slookupA (scombine A d) q = slookupA A q := by
  induction d generalizing A with
  | nil => simp [scombine]
  | cons kv rest ih =>
      obtain ⟨k, v⟩ := kv
      have hqk : ¬ q = k := by
        intro hh
        exact hq (by simp [hh])
      have hrest : q ∉ rest.map Prod.fst := by
        intro hh
        exact hq (by simp [hh])
      calc slookupA (scombine A ((k, v) :: rest)) q
          = slookupA (scombine (sinsertAppend A k v) rest) q := by
            simp [scombine]
        _ = slookupA (sinsertAppend A k v) q := ih (sinsertAppend A k v) hrest
        _ = slookupA A q := by simp [slookupA_sinsertAppend, hqk]

theorem slookupA_scombine (d : List (String × JSON))
    (A : List (String × List JSON)) (q : String)
    (hnd : (d.map Prod.fst).Nodup) :
    slookupA (scombine A d) q
      = match tlookup d q with
        | some v => some ((slookupA A q).getD [] ++ [v])
        | none => slookupA A q := by
  induction d generalizing A with
  | nil => simp [scombine, tlookup]
  | cons kv rest ih =>
      obtain ⟨k, v⟩ := kv
      rw [List.map_cons, List.nodup_cons] at hnd
      have hknotin : k ∉ rest.map Prod.fst := hnd.1
      have hndrest : (rest.map Prod.fst).Nodup := hnd.2
      by_cases hq : k = q
      · subst hq
        have step : slookupA (scombine A ((k, v) :: rest)) k
            = slookupA (sinsertAppend A k v) k := by
          simpa [scombine] using
            slookupA_scombine_not_mem rest (sinsertAppend A k v) k hknotin
        simp [step, slookupA_sinsertAppend, tlookup]
      · have step : slookupA (scombine A ((k, v) :: rest)) q
            = slookupA (scombine (sinsertAppend A k v) rest) q := by
          simp [scombine]
        rw [step, ih (sinsertAppend A k v) hndrest]
        have hqk : ¬ q = k := fun hh => hq hh.symm
        simp [slookupA_sinsertAppend, hqk, tlookup, hq]

theorem slookupA_foldl_scombine (ds : List (List (String × JSON)))
    (A : List (String × List JSON)) (q : String)
    (hnd : ∀ d ∈ ds, (d.map Prod.fst).Nodup) :
    slookupA (ds.foldl scombine A) q
      = (fun vs => if vs.isEmpty then slookupA A q
          else some ((slookupA A q).getD [] ++ vs))
          (ds.filterMap fun d => tlookup d q) := by
  induction ds generalizing A with
  | nil => simp
  | cons d rest ih =>
      have hd : (d.map Prod.fst).Nodup := hnd d (by simp)
      have hrest : ∀ d2 ∈ rest, (d2.map Prod.fst).Nodup := by
        intro d2 h2
        exact hnd d2 (by simp [h2])
      have base := slookupA_scombine d A q hd
      have step : slookupA ((d :: rest).foldl scombine A) q
          = slookupA (rest.foldl scombine (scombine A d)) q := by
        simp
      rw [step, ih (scombine A d) hrest]
      cases htl : tlookup d q with
      | none =>
          rw [htl] at base
          simp only [List.filterMap_cons, htl]
          simp [base]
      | some v =>
          rw [htl] at base
          simp only [List.filterMap_cons, htl]
          by_cases hvs : (rest.filterMap fun d2 => tlookup d2 q).isEmpty
          · have hnil := List.isEmpty_iff.mp hvs
            simp [base, hnil]
          · simp [base, hvs, List.append_assoc]

/-! Membership and distinctness of the unioned keys. -/

theorem mem_insertNewKeyS (acc : List String) (k q : String) :
    q ∈ insertNewKeyS acc k ↔ q ∈ acc ∨ q = k := by
  by_cases hk : k ∈ acc
  · simp only [insertNewKeyS]
    rw [if_pos (by simpa [List.contains_eq_any_beq] using hk)]
    constructor
    · exact Or.inl
    · rintro (h | rfl)
      · exact h
      · exact hk
  · simp only [insertNewKeyS]
    rw [if_neg (by simpa [List.contains_eq_any_beq] using hk)]
    simp

theorem mem_foldl_insertNewKeyS (d : List (String × JSON)) (acc : List String)
    (q : String) :
    q ∈ d.foldl (fun a kv => insertNewKeyS a kv.1) acc
      ↔ q ∈ acc ∨ q ∈ d.map Prod.fst := by
  induction d generalizing acc with
  | nil => simp
  | cons kv rest ih =>
      obtain ⟨k, v⟩ := kv
      simp only [List.foldl_cons, List.map_cons, List.mem_cons,
        ih (insertNewKeyS acc k), mem_insertNewKeyS]
      tauto

theorem mem_unionKeysS_aux (ds : List (List (String × JSON)))
    (acc : List String) (q : String) :
    q ∈ ds.foldl (fun acc d => d.foldl (fun a kv => insertNewKeyS a kv.1) acc) acc
      ↔ q ∈ acc ∨ ∃ d ∈ ds, q ∈ d.map Prod.fst := by
  induction ds generalizing acc with
  | nil => simp
  | cons d rest ih =>
      simp [ih, mem_foldl_insertNewKeyS, or_assoc]

theorem mem_unionKeysS (ds : List (List (String × JSON))) (q : String) :
    q ∈ unionKeysS ds ↔ ∃ d ∈ ds, q ∈ d.map Prod.fst := by
  simpa [unionKeysS] using mem_unionKeysS_aux ds [] q

theorem nodup_insertNewKeyS (acc : List String) (k : String)
    (h : acc.Nodup) : (insertNewKeyS acc k).Nodup := by
  by_cases hk : k ∈ acc
  · simp only [insertNewKeyS]
    rw [if_pos (by simpa [List.contains_eq_any_beq] using hk)]
    exact h
  · simp only [insertNewKeyS]
    rw [if_neg (by simpa [List.contains_eq_any_beq] using hk)]
    simp [List.nodup_append, h, hk]

theorem nodup_foldl_insertNewKeyS (d : List (String × JSON))
    (acc : List String) (h : acc.Nodup) :
    (d.foldl (fun a kv => insertNewKeyS a kv.1) acc).Nodup := by
  induction d generalizing acc with
  | nil => simpa
  | cons kv rest ih =>
      exact ih (insertNewKeyS acc kv.1) (nodup_insertNewKeyS acc kv.1 h)

theorem unionKeysS_nodup (ds : List (List (String × JSON))) :
    (unionKeysS ds).Nodup := by
  suffices h : ∀ acc : List String, acc.Nodup →
      (ds.foldl (fun acc d => d.foldl (fun a kv => insertNewKeyS a kv.1) acc)
        acc).Nodup by
    simpa [unionKeysS] using h [] (by simp)
  induction ds with
  | nil => intro acc h; simpa
  | cons d rest ih =>
      intro acc h
      exact ih _ (nodup_foldl_insertNewKeyS d acc h)

/-! Assoc-list extensionality for the accumulator. -/

theorem slookupA_eq_none_of_not_mem (A : List (String × List JSON))
    (q : String) (h : q ∉ A.map Prod.fst) : slookupA A q = none := by
  induction A with
  | nil => simp [slookupA]
  | cons kv rest ih =>
      obtain ⟨k2, vs⟩ := kv
      have h1 : ¬ k2 = q := by
        intro hh
        exact h (by simp [hh])
      have h2 : q ∉ rest.map Prod.fst := by
        intro hh
        exact h (by simp [hh])
      simp [slookupA, h1, ih h2]

theorem slookupA_tabulate (L : List String) (f : String → List JSON)
    (q : String) :
    slookupA (L.map fun k => (k, f k)) q = if q ∈ L then some (f q) else none := by
  induction L with
  | nil => simp [slookupA]
  | cons k rest ih =>
      by_cases h : k = q
      · subst h
        simp [slookupA]
      · simp [slookupA, h, ih, Ne.symm h]

theorem slookupA_ext (A B : List (String × List JSON))
    (hk : A.map Prod.fst = B.map Prod.fst)
    (hnd : (A.map Prod.fst).Nodup)
    (hl : ∀ q, slookupA A q = slookupA B q) : A = B := by
  induction A generalizing B with
  | nil =>
      cases B with
      | nil => rfl
      | cons kv rest => simp at hk
  | cons kv rest ih =>
      obtain ⟨k, vs⟩ := kv
      cases B with
      | nil => simp at hk
      | cons kv2 rest2 =>
          obtain ⟨k2, vs2⟩ := kv2
          rw [List.map_cons, List.map_cons] at hk
          have hkk : k = k2 := by
            have := congrArg (fun l => l.headD "") hk
            simpa using this
          subst hkk
          have htl : rest.map Prod.fst = rest2.map Prod.fst := by
            have := congrArg List.tail hk
            simpa using this
          rw [List.map_cons, List.nodup_cons] at hnd
          have hvs : vs = vs2 := by
            have := hl k
            simpa [slookupA] using this
          have hlr : ∀ q, slookupA rest q = slookupA rest2 q := by
            intro q
            by_cases hq : k = q
            · subst hq
              rw [slookupA_eq_none_of_not_mem rest k hnd.1,
                slookupA_eq_none_of_not_mem rest2 k (htl ▸ hnd.1)]
            · have := hl q
              simpa [slookupA, hq] using this
          rw [hvs, ih rest2 htl hnd.2 hlr]

/-- `all(isinstance(s, dict) ...)` succeeds exactly on object lists. -/
theorem allObjs_map_obj (xs : List (List (JSON × JSON))) :
    allObjs (xs.map JSON.obj) = some xs := by
  induction xs with
  | nil => rfl
  | cons d rest ih => simp [allObjs, ih]

theorem foldl_scombine_eq_tabulated (ds : List (List (String × JSON)))
    (hnd : ∀ d ∈ ds, (d.map Prod.fst).Nodup) :
    ds.foldl scombine []
      = (unionKeysS ds).map fun k => (k, ds.filterMap fun d => tlookup d k) := by
  apply slookupA_ext
  · rw [combine_acc_keys]
    simp [List.map_map, Function.comp_def]
  · rw [combine_acc_keys]
    exact unionKeysS_nodup ds
  · intro q
    rw [slookupA_foldl_scombine ds [] q hnd, slookupA_tabulate]
    by_cases hmem : q ∈ unionKeysS ds
    · have hne : ¬ (ds.filterMap fun d => tlookup d q).isEmpty = true := by
        intro hempty
        have hnil := List.isEmpty_iff.mp hempty
        have hall := List.filterMap_eq_nil_iff.mp hnil
        obtain ⟨d, hd, hqd⟩ := (mem_unionKeysS ds q).mp hmem
        exact ((tlookup_eq_none_iff d q).mp (hall d hd)) hqd
      simp [slookupA, hne, hmem]
    · have hall : ∀ d ∈ ds, tlookup d q = none := by
        intro d hd
        rw [tlookup_eq_none_iff]
        intro hqd
        exact hmem ((mem_unionKeysS ds q).mpr ⟨d, hd, hqd⟩)
      have hnil : (ds.filterMap fun d => tlookup d q) = [] :=
        List.filterMap_eq_nil_iff.mpr hall
      simp [slookupA, hnil, hmem]

theorem combineSelecteds_all_str_objs (ds : List (List (String × JSON)))
    (h2 : 2 ≤ ds.length) (hnd : ∀ d ∈ ds, (d.map Prod.fst).Nodup) :
    combineSelecteds (ds.map fun d => JSON.obj (strEntries d))
      = JSON.obj ((unionKeysS ds).map fun k =>
          (JSON.str k, JSON.arr (ds.filterMap fun d => tlookup d k))) := by
  have harg : (ds.map fun d => JSON.obj (strEntries d))
      = (ds.map strEntries).map JSON.obj := by
    simp [List.map_map, Function.comp_def]
  rw [harg]
  have hlen : ((ds.map strEntries).map JSON.obj).length = ds.length := by simp
  simp only [combineSelecteds]
  rw [if_neg (by rw [hlen]; omega)]
  rw [allObjs_map_obj]
  show JSON.obj ((combineDicts (ds.map strEntries)).map fun kv =>
    (kv.1, JSON.arr kv.2)) = _
  rw [combineDicts_strKeyed, foldl_scombine_eq_tabulated ds hnd]
  simp [List.map_map, Function.comp_def]

theorem allObjs_eq_none (xs : List JSON) (hx : ∃ x ∈ xs, isObjB x = false) :
    allObjs xs = none := by
  induction xs with
  | nil => simp at hx
  | cons y rest ih =>
      obtain ⟨x, hxmem, hxobj⟩ := hx
      cases y with
      | obj kvs =>
          have hxrest : x ∈ rest := by
            rcases List.mem_cons.mp hxmem with h | h
            · subst h; simp [isObjB] at hxobj
            · exact h
          simp [allObjs, ih ⟨x, hxrest, hxobj⟩]
      | null => rfl
      | bool b => rfl
      | int n => rfl
      | float q => rfl
      | str s => rfl
      | bytes b => rfl
      | arr elems => rfl

theorem combineSelecteds_mixed (xs : List JSON) (h2 : 2 ≤ xs.length)
    (hx : ∃ x ∈ xs, isObjB x = false) :
    combineSelecteds xs = .arr xs := by
  simp only [combineSelecteds]
  rw [if_neg (by omega), allObjs_eq_none xs hx]

/-! Claim theorems. -/

/-- C1: the claim states that the selector language supports arithmetic
over filtered operands and renders the ratio spec as 5.0. The grammar
embedded from spec.py lines 35-53 has no arithmetic production: with
`parse_all=True` both `=weight / =height` and the repository's own test
selector `numbers|first + numbers|last` are `ParseException`s (the
remainder after the first operand is never consumed), and applying the
claimed ratio spec to the claimed data propagates the parse error
instead of computing a quotient. -/
theorem arithmetic_selectors_rejected :
    parse_selector "=weight / =height" = none
    ∧ parse_selector "numbers|first + numbers|last" = none
    ∧ apply_spec dummyExt "en_US"
        [("weight", .leaf "item.weight"), ("height", .leaf "item.height"),
         ("ratio", .leaf "=weight / =height")]
        (.obj [(.str "item",
          .obj [(.str "weight", .int 80), (.str "height", .int 16)])])
      = .error .parseError :=
  ⟨rfl, rfl, rfl⟩

/-- C2: the claim states that a leading `~` hides a key (evaluated,
stored in the lookup table under the stripped key, omitted from the
output). The `apply_spec` embedded from spec.py 328-353 gives `~` no
treatment at all: `{"~t": "x"}` stores the value under the literal key
`~t` in the output, and the subsequent `=t` lookup raises
`KeyError("t")` instead of producing `{"u": 1}`. -/
theorem hidden_sigil_unsupported :
    apply_spec dummyExt "en_US" [("~t", .leaf "x"), ("u", .leaf "=t")]
      (.obj [(.str "x", .int 1)]) = .error (.keyError "t")
    ∧ apply_spec dummyExt "en_US" [("~t", .leaf "x")] (.obj [(.str "x", .int 1)])
      = .ok [("~t", .int 1)] :=
  ⟨rfl, rfl⟩

/-- C3: the claim states that `cumul` is available to selector
evaluation and that `numbers|cumul` yields `[1, 3, 7]`. The dispatch
dict embedded from spec.py 105-147 has no `cumul` entry, so
`select_data` reports an unknown filter; the `cumul_filter` of
filters.py 196-203 does compute the claimed prefix sums (on lists and on
dict values), but `select_data` never consults it. -/
theorem cumul_unavailable_in_select_data :
    select_data dummyExt "en_US"
        (.obj [(.str "numbers", .arr [.int 1, .int 2, .int 4])])
        "numbers|cumul" none
      = .error (.valueError "filter cumul does not exist")
    ∧ FiltersPy.cumul_filter (.arr [.int 1, .int 2, .int 4])
      = .ok (.arr [.int 1, .int 3, .int 7])
    ∧ FiltersPy.cumul_filter
        (.obj [(.str "a", .int 1), (.str "b", .int 2), (.str "c", .int 4)])
      = .ok (.obj [(.str "a", .int 1), (.str "b", .int 3), (.str "c", .int 7)]) :=
  ⟨rfl, rfl, rfl⟩

/-- C4: combining n ≥ 2 selections that all evaluate to maps produces a
map keyed by the first-occurrence union of the inputs' keys, each key
mapped to the list of the values of the inputs that contain it (in
input order, so keys absent from some inputs get shorter lists —
`defaultdict(list)` semantics); any other mix yields the plain list of
the n values; and on the claimed data
`(stats.views,stats.conversions)|sum` yields `{a: 11, b: 15}`. -/
theorem combine_union_semantics :
    (∀ ds : List (List (String × JSON)), 2 ≤ ds.length →
      (∀ d ∈ ds, (d.map Prod.fst).Nodup) →
      combineSelecteds (ds.map fun d => JSON.obj (strEntries d))
        = JSON.obj ((unionKeysS ds).map fun k =>
            (JSON.str k, JSON.arr (ds.filterMap fun d => tlookup d k))))
    ∧ (∀ xs : List JSON, 2 ≤ xs.length → (∃ x ∈ xs, isObjB x = false) →
        combineSelecteds xs = .arr xs)
    ∧ select_data dummyExt "en_US"
        (.obj [(.str "stats", .obj [
          (.str "views", .obj [(.str "a", .int 10), (.str "b", .int 12)]),
          (.str "conversions", .obj [(.str "a", .int 1), (.str "b", .int 3)])])])
        "(stats.views,stats.conversions)|sum" none
      = .ok (.obj [(.str "a", .int 11), (.str "b", .int 15)]) :=
  ⟨combineSelecteds_all_str_objs, combineSelecteds_mixed, rfl⟩

/-- C4 witness: the union semantics at the claim's concrete inputs. -/
theorem combine_union_semantics_witness :
    combineSelecteds
        [JSON.obj [(.str "a", .int 10), (.str "b", .int 12)],
         JSON.obj [(.str "a", .int 1), (.str "b", .int 3)]]
      = JSON.obj [(.str "a", .arr [.int 10, .int 1]),
                  (.str "b", .arr [.int 12, .int 3])] := by
  have h := combine_union_semantics.1
    [[("a", JSON.int 10), ("b", JSON.int 12)],
     [("a", JSON.int 1), ("b", JSON.int 3)]]
    (by decide) (by intro d hd; fin_cases hd <;> decide)
  exact h

/-- C5: when a spec key carries the trailing `?` sigil and evaluating
its selector leaf raises a missing-key error, `apply_spec` silently
skips the key: the result dict (which is also the lookup table) is left
untouched and the walk continues with the remaining entries; in
particular `applySpec({"name?": "nope"}, {})` returns `{}`. -/
theorem optional_sigil_skips_missing_key :
    (∀ (ext : Ext) (locale : String) (data : JSON) (key sel : String)
        (rest : List (String × SpecVal)) (result : List (String × JSON))
        (e : String),
        strEndsQm key = true →
        select_data ext locale data sel (some result) = .error (.keyError e) →
        applySpecGo ext locale data ((key, .leaf sel) :: rest) result
          = applySpecGo ext locale data rest result)
    ∧ apply_spec dummyExt "en_US" [("name?", .leaf "nope")] (.obj []) = .ok [] := by
  constructor
  · intro ext locale data key sel rest result e hq hsel
    simp [applySpecGo, applySpecEntry, hsel, hq]
  · rfl

/-- C5 witness: the skip rule applied at the claim's concrete input. -/
theorem optional_sigil_skips_missing_key_witness :
    applySpecGo dummyExt "en_US" (.obj []) [("name?", .leaf "nope")] []
      = applySpecGo dummyExt "en_US" (.obj []) [] [] :=
  optional_sigil_skips_missing_key.1 dummyExt "en_US" (.obj []) "name?" "nope"
    [] [] "nope" (by decide) rfl

/-- C6: the claim states that `sort` during selector evaluation sorts
maps by key and lists ascending. The `sort_filter` embedded from spec.py
170-174 — the copy `select_data` dispatches to — raises `ValueError` on
any dict (shown both directly and through the repository's own test
selector `stats.views|sort`), while sorting lists as claimed; the
filters.py copy (84-91) does sort dicts by key, but `select_data` never
calls it. -/
theorem sort_filter_rejects_map_in_select_data :
    select_data dummyExt "en_US"
        (.obj [(.str "stats", .obj [(.str "views",
          .obj [(.str "2021-11-02", .int 12), (.str "2021-11-01", .int 10),
                (.str "2021-11-03", .int 14)])])])
        "stats.views|sort" none
      = .error (.valueError "sort filter cannot be applied to given value")
    ∧ SpecPy.sort_filter (.obj [(.str "b", .int 2), (.str "a", .int 1)])
      = .error (.valueError "sort filter cannot be applied to given value")
    ∧ SpecPy.sort_filter (.arr [.int 3, .int 1, .int 2])
      = .ok (.arr [.int 1, .int 2, .int 3])
    ∧ FiltersPy.sort_filter
        (.obj [(.str "2021-11-02", .int 12), (.str "2021-11-01", .int 10),
               (.str "2021-11-03", .int 14)])
      = .ok (.obj [(.str "2021-11-01", .int 10), (.str "2021-11-02", .int 12),
                   (.str "2021-11-03", .int 14)]) :=
  ⟨rfl, rfl, rfl, rfl⟩

/-- C7: the claim states that `format_currency` recurses into a map's
values with the same currency, exactly as for lists. In both copies of
the code (spec.py 279-287, filters.py 218-227) the dict comprehension
omits the currency argument, so map values are always formatted with the
default `"USD"` while list elements receive the given currency: at
`x = {"a": 1}`, `currency = "EUR"` the map branch formats with `"USD"`
for every external formatter. -/
theorem format_currency_map_drops_currency :
    ∀ (ext : Ext) (locale : String),
      SpecPy.format_currency_filter ext locale (.obj [(.str "a", .int 1)]) "EUR"
        = .ok (.obj [(.str "a", .str (ext.fmtCurrency (.int 1) "USD" locale))])
      ∧ SpecPy.format_currency_filter ext locale (.arr [.int 1]) "EUR"
        = .ok (.arr [.str (ext.fmtCurrency (.int 1) "EUR" locale)])
      ∧ FiltersPy.format_currency_filter ext locale (.obj [(.str "a", .int 1)]) "EUR"
        = .ok (.obj [(.str "a", .str (ext.fmtCurrency (.int 1) "USD" locale))]) :=
  fun ext locale => ⟨rfl, rfl, rfl⟩

/-- C8 counterexample: the claim states that `validate_spec` compares
the spec's keys after sigil stripping, so that a key `name?` validates
against a target field `name`. The embedded key check (spec.py 359-362)
compares the raw keys: with target fields `{name}` and spec keys
`{name?}` the stripped keys coincide with the fields, yet the check
raises the symmetric-difference error instead of succeeding. -/
theorem validate_spec_keys_sigil_counterexample :
    stripSigils "name?" = "name"
    ∧ validate_spec_keys ["name"] ["name?"] = .error ["name", "name?"]
    ∧ validate_spec_keys ["name"] ["name"] = .ok () :=
  ⟨rfl, rfl, rfl⟩

/-- C8 amended: `validate_spec` compares the spec's keys verbatim (no
sigil stripping) with the target's field names: the key check succeeds
iff the raw key sets coincide, and otherwise it raises one error
carrying the symmetric difference — the target-side keys missing from
the spec followed by the spec-side keys missing from the target. -/
theorem validate_spec_keys_raw_iff :
    ∀ hintKeys specKeys : List String,
      (validate_spec_keys hintKeys specKeys = .ok ()
        ↔ ∀ k, k ∈ hintKeys ↔ k ∈ specKeys)
      ∧ (validate_spec_keys hintKeys specKeys = .ok ()
          ∨ validate_spec_keys hintKeys specKeys
              = .error (hintKeys.filter (fun k => !(specKeys.contains k))
                  ++ specKeys.filter (fun k => !(hintKeys.contains k)))) := by
  intro hintKeys specKeys
  have h1 : validate_spec_keys hintKeys specKeys = .ok ()
      ↔ symmDiffKeys hintKeys specKeys = [] := by
    unfold validate_spec_keys
    by_cases h : (symmDiffKeys hintKeys specKeys).isEmpty
    · simp [h, List.isEmpty_iff.mp h]
    · have := h
      rw [List.isEmpty_iff] at this
      simp [h, this]
  constructor
  · rw [h1]
    simp only [symmDiffKeys, List.append_eq_nil, List.filter_eq_nil_iff,
      List.elem_iff, Bool.not_eq_true, Bool.not_eq_false, not_not]
    constructor
    · intro h k
      constructor
      · intro hk
        have := h.1 k hk
        simpa [List.elem_iff] using this
      · intro hk
        have := h.2 k hk
        simpa [List.elem_iff] using this
    · intro h
      constructor
      · intro k hk
        simpa [List.elem_iff] using (h k).mp hk
      · intro k hk
        simpa [List.elem_iff] using (h k).mpr hk
  · by_cases h : (symmDiffKeys hintKeys specKeys).isEmpty
    · exact Or.inl (h1.mpr (List.isEmpty_iff.mp h))
    · right
      show validate_spec_keys hintKeys specKeys
        = .error (symmDiffKeys hintKeys specKeys)
      unfold validate_spec_keys
      rw [if_neg h]

/-- C9: on every list, `tail_filter` with explicit `n = 0` returns the
whole list (Python `x[-0:]` is `x[0:]`) whereas `head_filter` with
`n = 0` returns the empty list (`x[:0]`); the asymmetry also shows
through `select_data` with the literal argument `0`. Both files' copies
behave identically. -/
theorem head_tail_asymmetry_at_zero :
    (∀ xs : List JSON,
      SpecPy.tail_filter (.arr xs) 0 = .ok (.arr xs)
      ∧ SpecPy.head_filter (.arr xs) 0 = .ok (.arr [])
      ∧ FiltersPy.tail_filter (.arr xs) 0 = .ok (.arr xs)
      ∧ FiltersPy.head_filter (.arr xs) 0 = .ok (.arr []))
    ∧ select_data dummyExt "en_US"
        (.obj [(.str "numbers", .arr [.int 1, .int 2, .int 4])])
        "numbers|tail(0)" none = .ok (.arr [.int 1, .int 2, .int 4])
    ∧ select_data dummyExt "en_US"
        (.obj [(.str "numbers", .arr [.int 1, .int 2, .int 4])])
        "numbers|head(0)" none = .ok (.arr []) := by
  refine ⟨fun xs => ⟨?_, ?_, ?_, ?_⟩, rfl, rfl⟩
  · simp [SpecPy.tail_filter, pyTailSlice, pySliceBound]
  · simp [SpecPy.head_filter, pyTake, pySliceBound]
  · simp [FiltersPy.tail_filter, SpecPy.tail_filter, pyTailSlice, pySliceBound]
  · simp [FiltersPy.head_filter, SpecPy.head_filter, pyTake, pySliceBound]

/-- C10: within one spec object the result dict under construction is
itself the lookup table of every leaf evaluation: a rendered nested
sibling stored under `k` is immediately part of the table, a later leaf
`=k` resolves to exactly that rendered sub-object, and every
successfully evaluated leaf is stored (set-then-get holds on the table)
and hence visible to all later siblings; the concrete conjunct renders
`{"k": {"a": "x"}, "u": "=k"}` with `u` bound to the full sub-object. -/
theorem result_table_is_lookup_table :
    (∀ (ext : Ext) (locale : String) (data : JSON) (k : String)
        (es rest : List (String × SpecVal)) (result sub : List (String × JSON)),
        applySpecGo ext locale data es [] = .ok sub →
        applySpecGo ext locale data ((k, .node es) :: rest) result
          = applySpecGo ext locale data rest
              (tinsert result k (objOfTable sub)))
    ∧ (∀ (ext : Ext) (locale : String) (data : JSON) (k sel : String)
        (v : JSON) (rest : List (String × SpecVal))
        (result : List (String × JSON)),
        strEndsQm k = false →
        select_data ext locale data sel (some result) = .ok v →
        applySpecGo ext locale data ((k, .leaf sel) :: rest) result
          = applySpecGo ext locale data rest (tinsert result k v))
    ∧ (∀ (t : List (String × JSON)) (k : String) (v : JSON),
        tlookup (tinsert t k v) k = some v)
    ∧ (∀ (ext : Ext) (locale : String) (data : JSON)
        (result : List (String × JSON)) (k : String) (v : JSON),
        parse_selector ("=" ++ k) = some ⟨some k, [], []⟩ →
        tlookup result k = some v →
        select_data ext locale data ("=" ++ k) (some result) = .ok v)
    ∧ apply_spec dummyExt "en_US"
        [("k", .node [("a", .leaf "x")]), ("u", .leaf "=k")]
        (.obj [(.str "x", .int 1)])
      = .ok [("k", .obj [(.str "a", .int 1)]), ("u", .obj [(.str "a", .int 1)])] := by
  refine ⟨?_, ?_, tlookup_tinsert_self, ?_, rfl⟩
  · intro ext locale data k es rest result sub hsub
    simp [applySpecGo, applySpecEntry, hsub]
  · intro ext locale data k sel v rest result hk hsel
    simp [applySpecGo, applySpecEntry, hsel, hk]
  · intro ext locale data result k v hparse hlook
    simp [select_data, hparse, hlook, runFilters]

/-- C10 witness: the nested-sibling rule applied at the concrete
spec `{"k": {"a": "x"}, "u": "=k"}`. -/
theorem result_table_is_lookup_table_witness :
    applySpecGo dummyExt "en_US" (.obj [(.str "x", .int 1)])
        [("k", .node [("a", .leaf "x")]), ("u", .leaf "=k")] []
      = applySpecGo dummyExt "en_US" (.obj [(.str "x", .int 1)])
          [("u", .leaf "=k")] (tinsert [] "k" (objOfTable [("a", .int 1)])) :=
  result_table_is_lookup_table.1 dummyExt "en_US" (.obj [(.str "x", .int 1)])
    "k" [("a", .leaf "x")] [("u", .leaf "=k")] [] [("a", .int 1)] rfl

end Refill
